import Mathlib

/-!
Verification development for the kerinferencel repository.

The embedding models, from src/infer.py: the map IPC encoding of
update_map (hex wire format, 4-byte little-endian keys), the output
decoder parse_output (JSON response shapes, the bytes conversion, the
undersized check and the np.frombuffer int32 view), the trace verifier
check_kernel_trace (timeout loop over a blocking line feed with a
try/except wrapper), the image loader load_image, the argmax step of
main, and the effect trace of main; and, from src/train.py, the
artifact writer export_quantized_parameters (int8 weights, int32
biases, row-major, headerless).

External library calls are embedded by their documented behaviour:
np.frombuffer with dtype int32 requires the buffer length to be a
multiple of four and yields length / 4 little-endian signed values;
np.argmax returns the first index attaining the maximum;
binascii.hexlify writes two lowercase hex digits per byte;
bytes(seq) requires every element to lie in 0..255; ndarray.tofile
writes element-count times element-width bytes with no header;
PIL resize returns an image of exactly the requested size (the
resampling kernel is abstracted, only the shape is used here).
Python exceptions are modelled as error values of explicit kinds.
-/

namespace Infer

/-- Pinned path of the BPF input map, a process-wide constant of src/infer.py. -/
def INPUT_MAP_PATH : String := "/sys/fs/bpf/mnist_input"

/-- Pinned path of the BPF output map, a process-wide constant of src/infer.py. -/
def OUTPUT_MAP_PATH : String := "/sys/fs/bpf/mnist_output"

/-- Little-endian signed 32-bit value of four bytes, as one element of the
np.frombuffer view with dtype np.int32 on a little-endian host. -/
def toInt32 (b0 b1 b2 b3 : Nat) : Int :=
  let u : Nat := b0 + 256 * b1 + 65536 * b2 + 16777216 * b3
  if u < 2147483648 then (u : Int) else (u : Int) - 4294967296

/-- Element extraction of np.frombuffer with dtype np.int32: consecutive
4-byte little-endian groups of the buffer. -/
def bytesToInt32s : List Nat → List Int
  | b0 :: b1 :: b2 :: b3 :: rest => toInt32 b0 b1 b2 b3 :: bytesToInt32s rest
  | _ => []

/-- The shapes of JSON text relevant to a bpftool lookup response: an object
whose fields map string keys to arrays of byte integers, or an array of such
values, as decoded by json.loads in parse_output. -/
inductive BpfJson where
  | obj (fields : List (String × List Nat))
  | arr (elems : List BpfJson)

/-- Error kinds of parse_output in src/infer.py. The mapping to the raised
Python exceptions: emptyResult is ValueError "No data returned from bpftool",
malformedResponse is ValueError "Unexpected bpftool output", invalidByte is
the error bytes(...) raises on an element outside 0..255, undersizedValue is
ValueError "Unexpected output map size", bufferSizeError is the ValueError
np.frombuffer raises when the buffer length is not a multiple of the element
width. -/
inductive ParseErr where
  | emptyResult
  | malformedResponse
  | invalidByte
  | undersizedValue
  | bufferSizeError
  deriving DecidableEq

/-- Python lookup obj["value"] guarded by the check that "value" is a key. -/
def getValue (fields : List (String × List Nat)) : Option (List Nat) :=
  (fields.find? (fun p => p.fst == "value")).map (fun p => p.snd)

/-- Body of parse_output after the list has been collapsed to its first
element: the "value" key check, the bytes conversion, the minimum-size check
and the np.frombuffer int32 view. When the first element is itself an array,
the membership test "value" not in obj finds no such element and the
MalformedResponse error is raised. -/
def parseFirst : BpfJson → Except ParseErr (List Int)
  | BpfJson.arr _ => Except.error ParseErr.malformedResponse
  | BpfJson.obj fields =>
    match getValue fields with
    | none => Except.error ParseErr.malformedResponse
    | some vs =>
      if ¬ (∀ b ∈ vs, b < 256) then Except.error ParseErr.invalidByte
      else if vs.length < 40 then Except.error ParseErr.undersizedValue
      else if vs.length % 4 ≠ 0 then Except.error ParseErr.bufferSizeError
      else Except.ok (bytesToInt32s vs)

/-- parse_output of src/infer.py on the decoded JSON response: an empty array
raises EmptyResult; a non-empty array is collapsed to its first element;
then parseFirst applies. -/
def parse_output : BpfJson → Except ParseErr (List Int)
  | BpfJson.arr [] => Except.error ParseErr.emptyResult
  | BpfJson.arr (x :: _) => parseFirst x
  | BpfJson.obj fields => parseFirst (BpfJson.obj fields)

/-- Maximum of a list of integers with seed m, the fold np.max performs. -/
def listMaxFrom (m : Int) : List Int → Int
  | [] => m
  | x :: xs => listMaxFrom (max m x) xs

/-- np.argmax on a vector of integers: the first index attaining the maximum
value. On the empty list the value 0 is returned here; np.argmax raises
instead, and main never reaches argmax with an empty vector because
parse_output guarantees at least ten elements. -/
def np_argmax : List Int → Nat
  | [] => 0
  | x :: xs => List.indexOf (listMaxFrom x xs) (x :: xs)

/-- ASCII code of a lowercase hexadecimal digit, as binascii.hexlify and
int.to_bytes(...).hex() emit. -/
def hexChar (n : Nat) : Nat := if n < 10 then 48 + n else 87 + n

/-- binascii.hexlify: two lowercase hexadecimal digits per byte, returned as
the list of ASCII codes of the hex string. -/
def hexlify (bs : List Nat) : List Nat :=
  bs.flatMap (fun b => [hexChar (b / 16), hexChar (b % 16)])

/-- Value of one ASCII hexadecimal digit, lowercase letters accepted. -/
def hexVal (c : Nat) : Option Nat :=
  if 48 ≤ c ∧ c ≤ 57 then some (c - 48)
  else if 97 ≤ c ∧ c ≤ 102 then some (c - 87)
  else none

/-- Hexadecimal parse of the wire string back to bytes, the inverse direction
of the map-store wire contract consumed by the bpftool side. -/
def unhexlify : List Nat → Option (List Nat)
  | [] => some []
  | c1 :: c2 :: rest =>
    match hexVal c1, hexVal c2 with
    | some h, some l =>
      match unhexlify rest with
      | some bs => some ((16 * h + l) :: bs)
      | none => none
    | _, _ => none
  | _ => none

/-- Little-endian byte layout of a signed 32-bit integer in two-complement
form: the memory representation np.int32 values are written with (tofile)
and read from (frombuffer). -/
def encodeInt32LE (x : Int) : List Nat :=
  [(x % 4294967296).toNat % 256,
   (x % 4294967296).toNat / 256 % 256,
   (x % 4294967296).toNat / 65536 % 256,
   (x % 4294967296).toNat / 16777216 % 256]

/-- Byte layout of a signed 8-bit integer in two-complement form, the
element width ndarray.tofile uses for an int8 array. -/
def encodeInt8LE (x : Int) : List Nat := [(x % 256).toNat]

/-- Encoding of an int32 vector into its little-endian byte buffer, the
layout of the output map record. -/
def encodeInt32s (v : List Int) : List Nat := v.flatMap encodeInt32LE

/-- key.to_bytes(4, byteorder little): the 4-byte little-endian map key. -/
def nat32LE (n : Nat) : List Nat :=
  [n % 256, n / 256 % 256, n / 65536 % 256, n / 16777216 % 256]

/-- The data-bearing arguments of the bpftool invocation built by update_map:
the pinned map path, the hex key string and the hex value string. -/
structure UpdateCmd where
  map_path : String
  key_hex : List Nat
  data_hex : List Nat
  deriving DecidableEq

/-- update_map of src/infer.py: the key as 4-byte little-endian hex, the
payload hex-encoded by binascii.hexlify. -/
def update_map (map_path : String) (key : Nat) (data_bytes : List Nat) : UpdateCmd :=
  { map_path := map_path, key_hex := hexlify (nat32LE key), data_hex := hexlify data_bytes }

/-- ASCII bytes of the trace marker string BPF_INFER: of src/infer.py. -/
def marker : List Nat := [66, 80, 70, 95, 73, 78, 70, 69, 82, 58]

/-- Boolean test that the first list is an initial segment of the second. -/
def startsWith : List Nat → List Nat → Bool
  | [], _ => true
  | _ :: _, [] => false
  | a :: as, b :: bs => a == b && startsWith as bs

/-- Boolean substring containment, the Python test marker in line. -/
def hasSub (needle : List Nat) : List Nat → Bool
  | [] => needle.isEmpty
  | a :: rest => startsWith needle (a :: rest) || hasSub needle rest

/-- Test of one trace line for the marker. -/
def hasMarker (line : List Nat) : Bool := hasSub marker line

/-- One readline interaction with the trace pipe: a line arriving after a
given delay (milliseconds), or an exception raised during the read. After
the listed events the pipe supplies no further data, so a further readline
blocks indefinitely, the behaviour of the blocking trace_pipe stream. -/
inductive FeedEvent where
  | line (delay : Nat) (content : List Nat)
  | ioerr (delay : Nat)

/-- Result of the while loop inside the try block of check_kernel_trace:
normal exit with the found flag, an exception escaping to the handler, or
blocking forever inside readline. -/
inductive BodyResult where
  | ok (b : Bool)
  | exn
  | blocked
  deriving DecidableEq

/-- The while loop of check_kernel_trace: t is the elapsed wall-clock time in
milliseconds, rechecked at the loop head; each readline consumes the delay of
the next feed event; a matching line breaks with found true; when the feed
has no further events the blocking readline never returns. -/
def traceBody (timeout : Nat) : Nat → List FeedEvent → BodyResult
  | t, [] =>
    if timeout ≤ t then BodyResult.ok false else BodyResult.blocked
  | t, FeedEvent.line d s :: rest =>
    if timeout ≤ t then BodyResult.ok false
    else if hasMarker s then BodyResult.ok true
    else traceBody timeout (t + d) rest
  | t, FeedEvent.ioerr _ :: _ =>
    if timeout ≤ t then BodyResult.ok false
    else BodyResult.exn

/-- Outcome of check_kernel_trace as observed by its caller: a returned
boolean, or no return at all because the loop blocked in readline. -/
inductive TraceOutcome where
  | returns (b : Bool)
  | blocks
  deriving DecidableEq

/-- check_kernel_trace of src/infer.py: openOk false models open raising;
the try/except wrapper catches the open failure and any read exception,
prints a diagnostic and returns the found flag, which is false on every
exception path since a true flag breaks the loop immediately. -/
def check_kernel_trace (timeout : Nat) (openOk : Bool) (feed : List FeedEvent) : TraceOutcome :=
  if openOk = false then TraceOutcome.returns false
  else
    match traceBody timeout 0 feed with
    | BodyResult.ok b => TraceOutcome.returns b
    | BodyResult.exn => TraceOutcome.returns false
    | BodyResult.blocked => TraceOutcome.blocks

/-- A decoded image as PIL presents it after convert L: a grayscale pixel
grid with its dimensions. -/
structure PILImage where
  width : Nat
  height : Nat
  pixel : Nat → Nat → Nat

/-- img.resize((28, 28)): PIL returns an image of exactly the requested
size; the resampling kernel is abstracted to nearest-neighbour sampling,
faithful in shape, which is the only aspect used by the theorems below. -/
def resize28 (img : PILImage) : PILImage :=
  { width := 28, height := 28,
    pixel := fun i j => img.pixel (i * img.height / 28) (j * img.width / 28) }

/-- load_image of src/infer.py: convert to grayscale, resize to 28 by 28,
then flatten row-major into uint8 samples. -/
def load_image (img : PILImage) : List Nat :=
  (List.range (resize28 img).height).flatMap
    (fun i => (List.range (resize28 img).width).map (fun j => (resize28 img).pixel i j % 256))

/-- Observable steps of main in src/infer.py. -/
inductive Effect where
  | updateMap (path : String) (key : Nat) (data : List Nat)
  | trigger
  | traceDetected (b : Bool)
  | sleep
  | lookupMap (path : String) (key : Nat)
  | printOutput (v : List Int)
  | printDigit (d : Nat)
  | exitCode (n : Nat)
  | raiseError (e : ParseErr)
  | blockedForever
  deriving DecidableEq

/-- Effect trace of main in src/infer.py on an image yielding the sample list
flat, parameterized by the trace-pipe behaviour (openOk, feed) and the JSON
value of the lookup response. A wrong sample count exits with status 1 before
any map call; otherwise the input map is updated at key 0 with the samples,
inference is triggered, the trace is checked with a one second timeout, and
after a settle sleep the output map is looked up and decoded. -/
def mainTrace (flat : List Nat) (openOk : Bool) (feed : List FeedEvent) (resp : BpfJson) :
    List Effect :=
  if flat.length ≠ 784 then [Effect.exitCode 1]
  else
    Effect.updateMap INPUT_MAP_PATH 0 flat :: Effect.trigger ::
      match check_kernel_trace 1000 openOk feed with
      | TraceOutcome.blocks => [Effect.blockedForever]
      | TraceOutcome.returns b =>
        Effect.traceDetected b :: Effect.sleep :: Effect.lookupMap OUTPUT_MAP_PATH 0 ::
          match parse_output resp with
          | Except.error e => [Effect.raiseError e]
          | Except.ok v => [Effect.printOutput v, Effect.printDigit (np_argmax v)]

/-- A quantized linear layer as export_quantized_parameters reads it from the
converted model: weight.int_repr() as a row-major int8 matrix and the bias as
an int32 vector, per the int32 annotation in src/train.py. -/
structure QuantizedLinear where
  weight_int_repr : List (List Int)
  bias : List Int

/-- export_quantized_parameters of src/train.py: the four artifact files in
write order, each as its name and the headerless byte content ndarray.tofile
produces, int8 elements for the weights and int32 elements for the biases. -/
def export_quantized_parameters (fc1 fc2 : QuantizedLinear) (pre : String) :
    List (String × List Nat) :=
  [ (pre ++ "hweights8.bin", fc1.weight_int_repr.flatMap (fun row => row.flatMap encodeInt8LE)),
    (pre ++ "hbias32.bin", fc1.bias.flatMap encodeInt32LE),
    (pre ++ "outweights8.bin", fc2.weight_int_repr.flatMap (fun row => row.flatMap encodeInt8LE)),
    (pre ++ "outbias32.bin", fc2.bias.flatMap encodeInt32LE) ]

/-! Helper lemmas shared by the claim theorems. -/

theorem bytesToInt32s_length : ∀ vs : List Nat, (bytesToInt32s vs).length = vs.length / 4
  | [] => rfl
  | [_] => by simp [bytesToInt32s]
  | [_, _] => by simp [bytesToInt32s]
  | [_, _, _] => by simp [bytesToInt32s]
  | _ :: _ :: _ :: _ :: rest => by
    simp only [bytesToInt32s, List.length_cons, bytesToInt32s_length rest]
    omega

theorem parseFirst_obj_value (fields : List (String × List Nat)) (vs : List Nat)
    (hv : getValue fields = some vs) :
    parseFirst (BpfJson.obj fields) =
      if ¬ (∀ b ∈ vs, b < 256) then Except.error ParseErr.invalidByte
      else if vs.length < 40 then Except.error ParseErr.undersizedValue
      else if vs.length % 4 ≠ 0 then Except.error ParseErr.bufferSizeError
      else Except.ok (bytesToInt32s vs) := by
  simp only [parseFirst, hv]

/-- C5: parse_output fails with EmptyResult on the empty array response and
with MalformedResponse on every object response lacking a value key. -/
theorem parse_output_empty_and_missing_value :
    parse_output (BpfJson.arr []) = Except.error ParseErr.emptyResult ∧
    ∀ fields : List (String × List Nat), (∀ p ∈ fields, p.fst ≠ "value") →
      parse_output (BpfJson.obj fields) = Except.error ParseErr.malformedResponse := by
  constructor
  · rfl
  · intro fields h
    have hv : List.find? (fun p => p.fst == "value") fields = none := by
      rw [List.find?_eq_none]
      intro p hp
      simpa using h p hp
    simp [parse_output, parseFirst, getValue, hv]

/-- C5 witness at the empty array and a value-free object. -/
theorem parse_output_empty_and_missing_value_witness :
    parse_output (BpfJson.obj [("other", [1])]) = Except.error ParseErr.malformedResponse :=
  parse_output_empty_and_missing_value.2 [("other", [1])] (by decide)

/-- C3: evaluation at the failing input. With open succeeding and a feed that
never supplies data, check_kernel_trace with the one second timeout of main
blocks inside the readline call instead of returning false; its own comment
announces a non-blocking read with a brief sleep, but the code opens the
trace pipe as a plain blocking stream. -/
theorem check_kernel_trace_blocks_on_silent_feed :
    check_kernel_trace 1000 true [] = TraceOutcome.blocks := rfl

/-- C1 counterexample: a value field of 44 bytes is at least 40 bytes long,
yet parse_output returns an 11-element vector, not a 10-element one. -/
theorem parse_output_len44_counterexample :
    parse_output (BpfJson.obj [("value", List.replicate 44 0)]) =
      Except.ok (List.replicate 11 (0 : Int)) ∧
    (List.replicate 11 (0 : Int)).length ≠ 10 := by
  constructor
  · rfl
  · decide

/-- C1 amended: for a response object whose value field decodes to bytes,
length below 40 fails with UndersizedValue; length at least 40 succeeds
exactly when the length is a multiple of four, yielding length / 4 signed
32-bit values (ten exactly when the length is 40); a length at least 40 that
is not a multiple of four raises the np.frombuffer buffer-size error. -/
theorem parse_output_value_length_cases (fields : List (String × List Nat)) (vs : List Nat)
    (hv : getValue fields = some vs) (hb : ∀ b ∈ vs, b < 256) :
    (vs.length < 40 →
      parse_output (BpfJson.obj fields) = Except.error ParseErr.undersizedValue) ∧
    (40 ≤ vs.length → vs.length % 4 = 0 →
      parse_output (BpfJson.obj fields) = Except.ok (bytesToInt32s vs) ∧
      (bytesToInt32s vs).length = vs.length / 4) ∧
    (40 ≤ vs.length → vs.length % 4 ≠ 0 →
      parse_output (BpfJson.obj fields) = Except.error ParseErr.bufferSizeError) := by
  have hp : parse_output (BpfJson.obj fields) = parseFirst (BpfJson.obj fields) := rfl
  rw [hp, parseFirst_obj_value fields vs hv]
  refine ⟨?_, ?_, ?_⟩
  · intro h40
    rw [if_neg (not_not_intro hb), if_pos h40]
  · intro h40 h4
    rw [if_neg (not_not_intro hb), if_neg (by omega), if_neg (not_not_intro h4)]
    exact ⟨rfl, bytesToInt32s_length vs⟩
  · intro h40 h4
    rw [if_neg (not_not_intro hb), if_neg (by omega), if_pos h4]

/-- C1 witness at a 40-byte value. -/
theorem parse_output_value_length_cases_witness :
    parse_output (BpfJson.obj [("value", List.replicate 40 0)]) =
      Except.ok (bytesToInt32s (List.replicate 40 0)) ∧
    (bytesToInt32s (List.replicate 40 0)).length = (List.replicate 40 (0 : Nat)).length / 4 :=
  (parse_output_value_length_cases [("value", List.replicate 40 0)] (List.replicate 40 0)
    rfl (by decide)).2.1 (by decide) (by decide)

/-- C10 counterexample: a two-element list response whose first object holds
a 41-byte value is at least 40 bytes long, yet the decoder fails with the
np.frombuffer buffer-size error rather than succeeding. -/
theorem parse_output_first41_counterexample :
    parse_output (BpfJson.arr [BpfJson.obj [("value", List.replicate 41 0)], BpfJson.obj []]) =
      Except.error ParseErr.bufferSizeError := rfl

/-- C10 amended: on a list response the decoder depends only on the first
element, silently ignoring the rest; when that first object carries a byte
value of length at least 40 that is a multiple of four, decoding succeeds
with the int32 view of that value. -/
theorem parse_output_uses_first (x : BpfJson) (rest : List BpfJson) (vs : List Nat) :
    parse_output (BpfJson.arr (x :: rest)) = parseFirst x ∧
    ((∀ b ∈ vs, b < 256) → 40 ≤ vs.length → vs.length % 4 = 0 →
      parse_output (BpfJson.arr (BpfJson.obj [("value", vs)] :: rest)) =
        Except.ok (bytesToInt32s vs)) := by
  refine ⟨rfl, ?_⟩
  intro hb h40 h4
  have hp : parse_output (BpfJson.arr (BpfJson.obj [("value", vs)] :: rest)) =
      parseFirst (BpfJson.obj [("value", vs)]) := rfl
  rw [hp, parseFirst_obj_value [("value", vs)] vs rfl,
    if_neg (not_not_intro hb), if_neg (by omega), if_neg (not_not_intro h4)]

/-- C10 witness at a two-element list whose first object holds 40 bytes. -/
theorem parse_output_uses_first_witness :
    parse_output (BpfJson.arr
        [BpfJson.obj [("value", List.replicate 40 0)], BpfJson.obj []]) =
      Except.ok (bytesToInt32s (List.replicate 40 0)) :=
  (parse_output_uses_first (BpfJson.obj [("value", List.replicate 40 0)]) [BpfJson.obj []]
    (List.replicate 40 0)).2 (by decide) (by decide) (by decide)

/-- C4: with exactly 784 samples the first effect of main is the update of
the input map at key 0 with the samples as the 784-byte payload; with any
other sample count main exits with status 1 and no map update or lookup
occurs. -/
theorem mainTrace_input_validation (flat : List Nat) (openOk : Bool) (feed : List FeedEvent)
    (resp : BpfJson) :
    (flat.length = 784 →
      (mainTrace flat openOk feed resp).head? =
        some (Effect.updateMap INPUT_MAP_PATH 0 flat)) ∧
    (flat.length ≠ 784 →
      mainTrace flat openOk feed resp = [Effect.exitCode 1] ∧
      (∀ p k d, Effect.updateMap p k d ∉ mainTrace flat openOk feed resp) ∧
      (∀ p k, Effect.lookupMap p k ∉ mainTrace flat openOk feed resp)) := by
  constructor
  · intro h
    simp [mainTrace, h]
  · intro h
    have ht : mainTrace flat openOk feed resp = [Effect.exitCode 1] := by
      simp [mainTrace, h]
    refine ⟨ht, ?_, ?_⟩
    · intro p k d
      simp [ht]
    · intro p k
      simp [ht]

/-- C4 witness at a 784-sample image and a 3-sample one. -/
theorem mainTrace_input_validation_witness :
    (mainTrace (List.replicate 784 0) true [] (BpfJson.arr [])).head? =
      some (Effect.updateMap INPUT_MAP_PATH 0 (List.replicate 784 0)) ∧
    mainTrace [1, 2, 3] true [] (BpfJson.arr []) = [Effect.exitCode 1] :=
  ⟨(mainTrace_input_validation (List.replicate 784 0) true [] (BpfJson.arr [])).1
      (List.length_replicate 784 0),
   ((mainTrace_input_validation [1, 2, 3] true [] (BpfJson.arr [])).2 (by decide)).1⟩

theorem length_flatMap_const {α β : Type _} (f : α → List β) (c : Nat) :
    ∀ l : List α, (∀ a ∈ l, (f a).length = c) → (l.flatMap f).length = l.length * c
  | [], _ => by simp
  | a :: t, h => by
    have h1 : (f a).length = c := h a (List.mem_cons_self a t)
    have h2 := length_flatMap_const f c t (fun b hb => h b (List.mem_cons_of_mem a hb))
    simp only [List.flatMap_cons, List.length_append, List.length_cons, h1, h2]
    ring

theorem length_flatMap_int8 (row : List Int) :
    (row.flatMap encodeInt8LE).length = row.length := by
  induction row with
  | nil => rfl
  | cons x t ih =>
    simp only [List.flatMap_cons, encodeInt8LE, List.singleton_append, List.length_cons, ih]

theorem length_flatMap_int32 (v : List Int) :
    (v.flatMap encodeInt32LE).length = 4 * v.length := by
  induction v with
  | nil => rfl
  | cons x t ih =>
    simp only [List.flatMap_cons, List.length_append, List.length_cons, List.length_nil,
      encodeInt32LE, ih]
    omega

/-- C2: the exporter writes the four artifacts in order, weights as 8-bit
signed elements and biases as 32-bit signed elements, so first-layer shape
(32, 784) and second-layer shape (10, 32) give files of 32 times 784,
32 times 4, 10 times 32 and 10 times 4 bytes respectively. -/
theorem export_quantized_parameters_lengths (fc1 fc2 : QuantizedLinear) (pre : String)
    (h1 : fc1.weight_int_repr.length = 32)
    (h1r : ∀ r ∈ fc1.weight_int_repr, r.length = 784)
    (h1b : fc1.bias.length = 32)
    (h2 : fc2.weight_int_repr.length = 10)
    (h2r : ∀ r ∈ fc2.weight_int_repr, r.length = 32)
    (h2b : fc2.bias.length = 10) :
    (export_quantized_parameters fc1 fc2 pre).map (fun p => (p.fst, p.snd.length)) =
      [(pre ++ "hweights8.bin", 32 * 784), (pre ++ "hbias32.bin", 32 * 4),
       (pre ++ "outweights8.bin", 10 * 32), (pre ++ "outbias32.bin", 10 * 4)] := by
  have w1 : (fc1.weight_int_repr.flatMap (fun row => row.flatMap encodeInt8LE)).length =
      32 * 784 := by
    rw [length_flatMap_const _ 784 fc1.weight_int_repr
      (fun r hr => (length_flatMap_int8 r).trans (h1r r hr)), h1]
  have w2 : (fc2.weight_int_repr.flatMap (fun row => row.flatMap encodeInt8LE)).length =
      10 * 32 := by
    rw [length_flatMap_const _ 32 fc2.weight_int_repr
      (fun r hr => (length_flatMap_int8 r).trans (h2r r hr)), h2]
  have b1 : (fc1.bias.flatMap encodeInt32LE).length = 32 * 4 := by
    rw [length_flatMap_int32, h1b]
  have b2 : (fc2.bias.flatMap encodeInt32LE).length = 10 * 4 := by
    rw [length_flatMap_int32, h2b]
  simp only [export_quantized_parameters, List.map_cons, List.map_nil, w1, w2, b1, b2]

/-- C2 witness at an all-zero model of the reference shapes. -/
theorem export_quantized_parameters_lengths_witness :
    (export_quantized_parameters
        ⟨List.replicate 32 (List.replicate 784 0), List.replicate 32 0⟩
        ⟨List.replicate 10 (List.replicate 32 0), List.replicate 10 0⟩ "").map
        (fun p => (p.fst, p.snd.length)) =
      [("" ++ "hweights8.bin", 32 * 784), ("" ++ "hbias32.bin", 32 * 4),
       ("" ++ "outweights8.bin", 10 * 32), ("" ++ "outbias32.bin", 10 * 4)] :=
  export_quantized_parameters_lengths
    ⟨List.replicate 32 (List.replicate 784 0), List.replicate 32 0⟩
    ⟨List.replicate 10 (List.replicate 32 0), List.replicate 10 0⟩ ""
    (List.length_replicate 32 _)
    (fun r hr => by rw [List.eq_of_mem_replicate hr]; exact List.length_replicate 784 0)
    (List.length_replicate 32 0)
    (List.length_replicate 10 _)
    (fun r hr => by rw [List.eq_of_mem_replicate hr]; exact List.length_replicate 32 0)
    (List.length_replicate 10 0)

theorem bytesToInt32s_encode_cons (x : Int) (rest : List Nat)
    (h1 : -2147483648 ≤ x) (h2 : x < 2147483648) :
    bytesToInt32s (encodeInt32LE x ++ rest) = x :: bytesToInt32s rest := by
  simp only [encodeInt32LE, List.cons_append, List.nil_append, bytesToInt32s]
  have hx : toInt32 ((x % 4294967296).toNat % 256) ((x % 4294967296).toNat / 256 % 256)
      ((x % 4294967296).toNat / 65536 % 256) ((x % 4294967296).toNat / 16777216 % 256) = x := by
    simp only [toInt32]
    split <;> omega
  rw [hx]
  rfl

theorem encodeInt32LE_lt256 (x : Int) : ∀ b ∈ encodeInt32LE x, b < 256 := by
  intro b hb
  simp only [encodeInt32LE, List.mem_cons, List.not_mem_nil, or_false] at hb
  rcases hb with h | h | h | h <;> omega

theorem encodeInt32s_lt256 (v : List Int) : ∀ b ∈ encodeInt32s v, b < 256 := by
  intro b hb
  simp only [encodeInt32s, List.mem_flatMap] at hb
  obtain ⟨x, _, hbx⟩ := hb
  exact encodeInt32LE_lt256 x b hbx

theorem bytesToInt32s_encodeInt32s (v : List Int)
    (h : ∀ x ∈ v, -2147483648 ≤ x ∧ x < 2147483648) :
    bytesToInt32s (encodeInt32s v) = v := by
  induction v with
  | nil => rfl
  | cons x t ih =>
    have hx := h x (List.mem_cons_self x t)
    simp only [encodeInt32s, List.flatMap_cons]
    rw [bytesToInt32s_encode_cons x _ hx.1 hx.2]
    have ht := ih (fun y hy => h y (List.mem_cons_of_mem x hy))
    simp only [encodeInt32s] at ht
    rw [ht]

theorem hexVal_hexChar (n : Nat) (h : n < 16) : hexVal (hexChar n) = some n := by
  by_cases h10 : n < 10
  · rw [hexChar, if_pos h10, hexVal, if_pos (by omega)]
    simp only [Option.some.injEq]
    omega
  · rw [hexChar, if_neg h10, hexVal, if_neg (by omega), if_pos (by omega)]
    simp only [Option.some.injEq]
    omega

theorem unhexlify_hexlify (bs : List Nat) (h : ∀ b ∈ bs, b < 256) :
    unhexlify (hexlify bs) = some bs := by
  induction bs with
  | nil => rfl
  | cons b t ih =>
    have hb : b < 256 := h b (List.mem_cons_self b t)
    have ht := ih (fun y hy => h y (List.mem_cons_of_mem b hy))
    show unhexlify (hexChar (b / 16) :: hexChar (b % 16) :: hexlify t) = some (b :: t)
    rw [unhexlify, hexVal_hexChar (b / 16) (by omega), hexVal_hexChar (b % 16) (by omega)]
    simp only [Option.some_bind]
    rw [ht]
    simp only [Option.map_some, Option.some.injEq, List.cons.injEq]
    exact ⟨by omega, trivial⟩

/-- C7: codec symmetry. Any in-range 10-element int32 vector written in its
40-byte little-endian layout is decoded back to itself by parse_output, and
the hex wire string built by update_map for any byte payload parses back to
the original payload. -/
theorem codec_roundtrip :
    (∀ v : List Int, v.length = 10 → (∀ x ∈ v, -2147483648 ≤ x ∧ x < 2147483648) →
      parse_output (BpfJson.obj [("value", encodeInt32s v)]) = Except.ok v) ∧
    (∀ (p : String) (k : Nat) (d : List Nat), (∀ b ∈ d, b < 256) →
      unhexlify (update_map p k d).data_hex = some d) := by
  constructor
  · intro v hlen hrange
    have hl : (encodeInt32s v).length = 40 := by
      show (v.flatMap encodeInt32LE).length = 40
      rw [length_flatMap_int32, hlen]
    have hp : parse_output (BpfJson.obj [("value", encodeInt32s v)]) =
        parseFirst (BpfJson.obj [("value", encodeInt32s v)]) := rfl
    rw [hp, parseFirst_obj_value [("value", encodeInt32s v)] (encodeInt32s v) rfl,
      if_neg (not_not_intro (encodeInt32s_lt256 v)), if_neg (by omega),
      if_neg (not_not_intro (by rw [hl])), bytesToInt32s_encodeInt32s v hrange]
  · intro p k d hd
    show unhexlify (hexlify d) = some d
    exact unhexlify_hexlify d hd

/-- C7 witness at a signed 10-vector and a 3-byte payload. -/
theorem codec_roundtrip_witness :
    parse_output (BpfJson.obj [("value", encodeInt32s [3, -1, 7, 2, 0, 0, 0, 0, 0, 0])]) =
      Except.ok [3, -1, 7, 2, 0, 0, 0, 0, 0, 0] ∧
    unhexlify (update_map INPUT_MAP_PATH 0 [0, 171, 255]).data_hex = some [0, 171, 255] :=
  ⟨codec_roundtrip.1 [3, -1, 7, 2, 0, 0, 0, 0, 0, 0] (by decide) (by decide),
   codec_roundtrip.2 INPUT_MAP_PATH 0 [0, 171, 255] (by decide)⟩

theorem listMaxFrom_le_self : ∀ (xs : List Int) (m : Int), m ≤ listMaxFrom m xs
  | [], m => le_refl m
  | x :: xs, m => le_trans (le_max_left m x) (listMaxFrom_le_self xs (max m x))

theorem le_listMaxFrom_of_mem : ∀ (xs : List Int) (m y : Int), y ∈ xs → y ≤ listMaxFrom m xs
  | [], _, y, h => absurd h (List.not_mem_nil y)
  | x :: xs, m, y, h => by
    rcases List.mem_cons.mp h with rfl | h2
    · exact le_trans (le_max_right m y) (listMaxFrom_le_self xs (max m y))
    · exact le_listMaxFrom_of_mem xs (max m x) y h2

theorem listMaxFrom_eq_or_mem : ∀ (xs : List Int) (m : Int),
    listMaxFrom m xs = m ∨ listMaxFrom m xs ∈ xs
  | [], _ => Or.inl rfl
  | x :: xs, m => by
    rcases listMaxFrom_eq_or_mem xs (max m x) with h | h
    · rcases max_choice m x with hm | hm
      · exact Or.inl (by rw [listMaxFrom, h, hm])
      · refine Or.inr ?_
        rw [listMaxFrom, h, hm]
        exact List.mem_cons_self x xs
    · refine Or.inr (List.mem_cons_of_mem x ?_)
      rw [listMaxFrom]
      exact h

theorem indexOf_first : ∀ (l : List Int) (a : Int),
    ∀ i, i < List.indexOf a l → l.getD i 0 ≠ a
  | [], a, i, hi => by
    have h0 : List.indexOf a ([] : List Int) = 0 := rfl
    rw [h0] at hi
    omega
  | b :: t, a, i, hi => by
    by_cases hba : b = a
    · subst hba
      rw [List.indexOf_cons_self] at hi
      omega
    · rw [List.indexOf_cons_ne t hba] at hi
      cases i with
      | zero => simpa using hba
      | succ j =>
        have := indexOf_first t a j (by omega)
        simpa using this

/-- C6: np_argmax returns an index of the vector holding its maximum value,
every earlier entry being strictly smaller, so ties break to the first
occurrence; on [3,-1,7,2,0,0,0,0,0,0] the index is 2 and on a vector whose
maximum first occurs at index 0 the index is 0. -/
theorem np_argmax_first_max :
    (∀ l : List Int, l ≠ [] →
      np_argmax l < l.length ∧
      (∀ i, i < l.length → l.getD i 0 ≤ l.getD (np_argmax l) 0) ∧
      (∀ i, i < np_argmax l → l.getD i 0 < l.getD (np_argmax l) 0)) ∧
    np_argmax [3, -1, 7, 2, 0, 0, 0, 0, 0, 0] = 2 ∧
    np_argmax [5, 5, 0, 0, 0, 0, 0, 0, 0, 0] = 0 := by
  refine ⟨?_, by decide, by decide⟩
  intro l hl
  match l, hl with
  | x :: xs, _ =>
    have hM_mem : listMaxFrom x xs ∈ x :: xs := by
      rcases listMaxFrom_eq_or_mem xs x with h | h
      · rw [h]
        exact List.mem_cons_self x xs
      · exact List.mem_cons_of_mem x h
    have hle : ∀ y ∈ x :: xs, y ≤ listMaxFrom x xs := by
      intro y hy
      rcases List.mem_cons.mp hy with rfl | h2
      · exact listMaxFrom_le_self xs y
      · exact le_listMaxFrom_of_mem xs x y h2
    have hargdef : np_argmax (x :: xs) = List.indexOf (listMaxFrom x xs) (x :: xs) := rfl
    have hidx : List.indexOf (listMaxFrom x xs) (x :: xs) < (x :: xs).length :=
      List.indexOf_lt_length.mpr hM_mem
    have hval : (x :: xs).getD (List.indexOf (listMaxFrom x xs) (x :: xs)) 0 =
        listMaxFrom x xs := by
      rw [List.getD_eq_getElem _ _ hidx]
      exact List.getElem_indexOf hidx
    refine ⟨by rw [hargdef]; exact hidx, ?_, ?_⟩
    · intro i hi
      rw [hargdef, hval]
      have hmem : (x :: xs).getD i 0 ∈ x :: xs := by
        rw [List.getD_eq_getElem _ _ hi]
        exact List.getElem_mem hi
      exact hle _ hmem
    · intro i hi
      rw [hargdef] at hi
      rw [hargdef, hval]
      have hlen : i < (x :: xs).length := lt_trans hi hidx
      have hmem : (x :: xs).getD i 0 ∈ x :: xs := by
        rw [List.getD_eq_getElem _ _ hlen]
        exact List.getElem_mem hlen
      exact lt_of_le_of_ne (hle _ hmem) (indexOf_first (x :: xs) (listMaxFrom x xs) i hi)

/-- C6 witness at the vector of the spec example. -/
theorem np_argmax_first_max_witness :
    np_argmax [3, -1, 7, 2, 0, 0, 0, 0, 0, 0] <
      ([3, -1, 7, 2, 0, 0, 0, 0, 0, 0] : List Int).length :=
  (np_argmax_first_max.1 [3, -1, 7, 2, 0, 0, 0, 0, 0, 0] (by decide)).1

/-- C8: any image PIL opens is resized to 28 by 28 before flattening, so
load_image always yields exactly 784 samples and the exit-with-1 branch of
main for a wrong sample count is unreachable for a loaded image. -/
theorem load_image_length_784 (img : PILImage) :
    (load_image img).length = 784 ∧
    ∀ (openOk : Bool) (feed : List FeedEvent) (resp : BpfJson),
      Effect.exitCode 1 ∉ mainTrace (load_image img) openOk feed resp := by
  have hl : (load_image img).length = 784 := by
    rw [load_image, List.length_flatMap]
    simp only [resize28, Function.comp_def, List.length_map, List.length_range]
    decide
  refine ⟨hl, ?_⟩
  intro openOk feed resp h
  rw [mainTrace, if_neg (by rw [hl]; exact fun hc => hc rfl)] at h
  cases hck : check_kernel_trace 1000 openOk feed with
  | blocks => rw [hck] at h; simp at h
  | returns b =>
    rw [hck] at h
    cases hpo : parse_output resp with
    | error e => rw [hpo] at h; simp at h
    | ok v => rw [hpo] at h; simp at h

/-- C8 witness at a one-pixel image. -/
theorem load_image_length_784_witness :
    (load_image ⟨1, 1, fun _ _ => 0⟩).length = 784 ∧
    Effect.exitCode 1 ∉ mainTrace (load_image ⟨1, 1, fun _ _ => 0⟩) true [] (BpfJson.arr []) :=
  ⟨(load_image_length_784 ⟨1, 1, fun _ _ => 0⟩).1,
   (load_image_length_784 ⟨1, 1, fun _ _ => 0⟩).2 true [] (BpfJson.arr [])⟩

/-- C9: check_kernel_trace propagates no exception: with the open failure or
any read exception modelled in the body result, the wrapper returns the found
flag, which is false on every exception path, and a true return can only come
from a normally detected marker. -/
theorem check_kernel_trace_catches (timeout : Nat) (openOk : Bool) (feed : List FeedEvent) :
    (check_kernel_trace timeout openOk feed = TraceOutcome.returns true →
      openOk = true ∧ traceBody timeout 0 feed = BodyResult.ok true) ∧
    (openOk = false ∨ traceBody timeout 0 feed = BodyResult.exn →
      check_kernel_trace timeout openOk feed = TraceOutcome.returns false) := by
  constructor
  · intro h
    by_cases ho : openOk = false
    · rw [check_kernel_trace, if_pos ho] at h
      simp at h
    · rw [check_kernel_trace, if_neg ho] at h
      refine ⟨by revert ho; cases openOk <;> simp, ?_⟩
      cases hb : traceBody timeout 0 feed with
      | ok b =>
        rw [hb] at h
        cases b
        · simp at h
        · rfl
      | exn => rw [hb] at h; simp at h
      | blocked => rw [hb] at h; simp at h
  · rintro (ho | hb)
    · rw [check_kernel_trace, if_pos ho]
    · by_cases ho : openOk = false
      · rw [check_kernel_trace, if_pos ho]
      · rw [check_kernel_trace, if_neg ho, hb]

/-- C9 witness at an open failure. -/
theorem check_kernel_trace_catches_witness :
    check_kernel_trace 500 false [FeedEvent.ioerr 1] = TraceOutcome.returns false :=
  (check_kernel_trace_catches 500 false [FeedEvent.ioerr 1]).2 (Or.inl rfl)

end Infer
